import Mathlib

/-!
Verification of the `brick_tq_shacl` package against its specification.

The development shallowly embeds `src/brick_tq_shacl/__init__.py` (the public
`infer` / `validate` / `pretty_print_report` API) together with the error path
of `src/brick_tq_shacl/topquadrant_shacl.py`.  RDF graphs are modelled as
finite sets of triples; the external TopQuadrant engine is modelled as the
sequence of stdout texts it produces (one per invocation), and the RDF parser
as an oracle from text to either a parse diagnostic or a list of triples, both
universally quantified in the theorems.  Python-level behaviours that matter to
the claims (truthiness of graphs, terms and literals; in-place mutation of
caller graphs versus rebinding to derived copies) are embedded explicitly.
-/

set_option maxRecDepth 4000

namespace BrickTQ

/-- Character strings, modelled as lists of characters so that every string
operation used by the embedding is structural and kernel-reducible. -/
abbrev Str := List Char

/-- An RDF term: a URI reference, a blank node, or a literal (lexical form
plus datatype URI; the plain-literal datatype is the empty string). -/
inductive Term where
  | uri (s : Str)
  | bnode (s : Str)
  | lit (v : Str) (dt : Str)
deriving DecidableEq

/-- An RDF triple: (subject, predicate, object). -/
abbrev Triple := Term × Term × Term

/-- An rdflib `Graph`: a finite set of triples. -/
abbrev Graph := Finset Triple

/- Vocabulary constants used by the source. -/

def owlImports : Term := Term.uri "http://www.w3.org/2002/07/owl#imports".toList

def rdfType : Term := Term.uri "http://www.w3.org/1999/02/22-rdf-syntax-ns#type".toList

def shValidationReport : Term := Term.uri "http://www.w3.org/ns/shacl#ValidationReport".toList

def shConforms : Term := Term.uri "http://www.w3.org/ns/shacl#conforms".toList

def shResult : Term := Term.uri "http://www.w3.org/ns/shacl#result".toList

def shResultSeverity : Term := Term.uri "http://www.w3.org/ns/shacl#resultSeverity".toList

def shViolation : Term := Term.uri "http://www.w3.org/ns/shacl#Violation".toList

def shFocusNode : Term := Term.uri "http://www.w3.org/ns/shacl#focusNode".toList

def shResultMessage : Term := Term.uri "http://www.w3.org/ns/shacl#resultMessage".toList

def shResultPath : Term := Term.uri "http://www.w3.org/ns/shacl#resultPath".toList

def shValue : Term := Term.uri "http://www.w3.org/ns/shacl#value".toList

def shSourceConstraintComponent : Term :=
  Term.uri "http://www.w3.org/ns/shacl#sourceConstraintComponent".toList

def shSourceShape : Term := Term.uri "http://www.w3.org/ns/shacl#sourceShape".toList

def xsdBoolean : Str := "http://www.w3.org/2001/XMLSchema#boolean".toList

/-- `rdflib.Literal(True)`: lexical form `true` typed `xsd:boolean`. -/
def litTrue : Term := Term.lit "true".toList xsdBoolean

/-- `rdflib.Literal(False)`: lexical form `false` typed `xsd:boolean`. -/
def litFalse : Term := Term.lit "false".toList xsdBoolean

/- Python / rdflib truthiness.  `URIRef` and `BNode` are `str` subclasses, so
they are falsy exactly when the underlying string is empty; `Literal`
overrides `__bool__` to use the literal's value (for `xsd:boolean` literals
the value is the boolean itself).  Modelled from the spec: these semantics
belong to the out-of-scope RDF library, used by the source as primitives. -/

def termTruthy : Term → Bool
  | Term.uri s => !s.isEmpty
  | Term.bnode s => !s.isEmpty
  | Term.lit v dt => if dt = xsdBoolean then decide (v = "true".toList) else !v.isEmpty

/-- `bool(x)` for an optional term (`None` is falsy). -/
def pyBool : Option Term → Bool
  | none => false
  | some t => termTruthy t

/-- Python's `str(b)` for a `bool`. -/
def pyBoolStr (b : Bool) : Str := if b then "True".toList else "False".toList

/- Graph primitives over the triple set. -/

/-- `list(g.triples((None, OWL.imports, None)))`: the `owl:imports` triples. -/
def importsOf (g : Graph) : Graph := g.filter (fun t => t.2.1 = owlImports)

/-- `g.remove((None, OWL.imports, None))`: the graph without its
`owl:imports` triples. -/
def removeImports (g : Graph) : Graph := g.filter (fun t => ¬ t.2.1 = owlImports)

/- Skolemization.  Modelled from the spec: blank-node skolemization and
de-skolemization are primitives of the RDF library ("a stable, deterministic
URI substituted for a blank node identifier"); rdflib realises them by
prefixing the blank-node label with a fixed genid namespace on subject and
object positions, and stripping that prefix again. -/

/-- The rdflib skolem genid prefix (default authority and basepath). -/
def genid : Str := "https://rdflib.github.io/.well-known/genid/rdflib/".toList

def skolemizeTerm : Term → Term
  | Term.bnode s => Term.uri (genid ++ s)
  | t => t

def skolemizeTriple (t : Triple) : Triple :=
  (skolemizeTerm t.1, t.2.1, skolemizeTerm t.2.2)

/-- `Graph.skolemize()`: returns a new graph with blank nodes replaced by
genid URIs in subject and object positions. -/
def skolemize (g : Graph) : Graph := g.image skolemizeTriple

def deSkolemizeTerm : Term → Term
  | Term.uri u => if genid <+: u then Term.bnode (u.drop genid.length) else Term.uri u
  | t => t

def deSkolemizeTriple (t : Triple) : Triple :=
  (deSkolemizeTerm t.1, t.2.1, deSkolemizeTerm t.2.2)

/-- `Graph.de_skolemize()`: returns a new graph with genid URIs turned back
into blank nodes in subject and object positions. -/
def de_skolemize (g : Graph) : Graph := g.image deSkolemizeTriple

/-- Is this term a URI in the skolem genid namespace? -/
def isGenidUri : Term → Bool
  | Term.uri u => decide (genid <+: u)
  | _ => false

/-- No skolem genid URI in subject or object position of the triple. -/
def noGenid (t : Triple) : Prop :=
  isGenidUri t.1 = false ∧ isGenidUri t.2.2 = false

instance noGenidDecidable (t : Triple) : Decidable (noGenid t) := by
  unfold noGenid
  infer_instance

/- Text handling for the engine's stdout. -/

/-- Does the line contain the `::` marker TopQuadrant uses for log output? -/
def hasDoubleColon : Str → Bool
  | [] => false
  | [_] => false
  | a :: b :: rest => (a == ':' && b == ':') || hasDoubleColon (b :: rest)

/-- Split a string at every newline character (keeping empty pieces). -/
def splitOnNl : Str → List Str
  | [] => [[]]
  | c :: rest =>
    if c = '\n' then [] :: splitOnNl rest
    else
      match splitOnNl rest with
      | [] => [[c]]
      | l :: ls => (c :: l) :: ls

/-- Python `str.splitlines` (restricted to `\n` line breaks, the form the
engine emits): like `splitOnNl` but with no trailing empty line. -/
def pySplitlines (s : Str) : List Str :=
  if s = [] then []
  else if s.getLast? = some '\n' then (splitOnNl s).dropLast
  else splitOnNl s

/-- Join lines with `\n`, Python's `"\n".join`. -/
def joinNl (ls : List Str) : Str := List.intercalate ['\n'] ls

/-- `clean_stdout` from `__init__.py`: drop every line containing `::`. -/
def clean_stdout (s : Str) : Str :=
  joinNl ((pySplitlines s).filter (fun l => !hasDoubleColon l))

/- rdflib's `Graph.isomorphic`, the primitive the inference loop's early exit
uses.  Modelled from the spec: it is an approximation that compares sizes and
the ground (blank-node-free) triples of both graphs. -/

def isBnodeTerm : Term → Bool
  | Term.bnode _ => true
  | _ => false

def hasBnodeSO (t : Triple) : Bool := isBnodeTerm t.1 || isBnodeTerm t.2.2

/-- `a.isomorphic(b)` (rdflib's crude per-graph check). -/
def crudeIsomorphic (a b : Graph) : Bool :=
  (a.card == b.card)
    && decide (a.filter (fun t => !hasBnodeSO t) ⊆ b)
    && decide (b.filter (fun t => !hasBnodeSO t) ⊆ a)

/-- True RDF graph isomorphism: some relabelling of blank-node labels that is
a bijection between the two graphs' blank-node label sets carries one graph
onto the other. -/
def relabelTerm (f : Str → Str) : Term → Term
  | Term.bnode s => Term.bnode (f s)
  | t => t

def relabelTriple (f : Str → Str) (t : Triple) : Triple :=
  (relabelTerm f t.1, relabelTerm f t.2.1, relabelTerm f t.2.2)

def termBnodeLabels : Term → Finset Str
  | Term.bnode s => {s}
  | _ => ∅

def bnodeLabels (g : Graph) : Finset Str :=
  g.biUnion (fun t => termBnodeLabels t.1 ∪ termBnodeLabels t.2.1 ∪ termBnodeLabels t.2.2)

def GraphIso (a b : Graph) : Prop :=
  ∃ f : Str → Str,
    Set.BijOn f (bnodeLabels a) (bnodeLabels b) ∧ a.image (relabelTriple f) = b

/- The inference loop of `infer` (`__init__.py`, lines 97-131).

The external engine is modelled by `outputs : Nat → Str`, the stdout text of
its n-th invocation in this run (the engine is a black box, so any behaviour
is some such sequence), and the RDF parser by
`parse : Str → Except Str (List Triple)`, returning either the parse
diagnostic the parser raises or the parsed triples. -/

/-- The loop's mutable state: the skolemized data graph, the recorded size,
the size-changed flag, the iteration counter (a Python `int`), the previous
inferred graph, plus instrumentation (`calls`: engine invocations so far) and
the pending exception (`err`), if the parse of an engine output raised. -/
structure LoopState where
  dataGraph : Graph
  size : Nat
  sizeChanged : Bool
  iteration : Int
  prevInferred : Option Graph
  calls : Nat
  err : Option Str
deriving DecidableEq

/-- `early_isomorphic_exit`'s test:
`previous_inferred_graph is not None and inferred_graph.isomorphic(...)`. -/
def isoPrev (inferred : Graph) : Option Graph → Bool
  | some p => crudeIsomorphic inferred p
  | none => false

/-- One-for-one embedding of the `while` loop of `infer`: continue while
`(data_graph_size_changed or current_iteration < min_iterations) and
current_iteration < max_iterations`; each pass parses the cleaned engine
output, optionally breaks on the early isomorphic exit, merges the inferred
triples, and updates size / flag / counter.  `fuel` bounds the recursion and
is instantiated with `max_iterations.toNat`, which the guard makes exact. -/
def inferLoop (minIter maxIter : Int) (early : Bool) (outputs : Nat → Str)
    (parse : Str → Except Str (List Triple)) : Nat → LoopState → LoopState
  | 0, st => st
  | fuel + 1, st =>
    if (st.sizeChanged || decide (st.iteration < minIter))
        && decide (st.iteration < maxIter) then
      match parse (clean_stdout (outputs st.calls)) with
      | Except.error e => { st with err := some e, calls := st.calls + 1 }
      | Except.ok tl =>
        if early && isoPrev tl.toFinset st.prevInferred then
          { st with calls := st.calls + 1 }
        else
          inferLoop minIter maxIter early outputs parse fuel
            { dataGraph := st.dataGraph ∪ tl.toFinset
              size := (st.dataGraph ∪ tl.toFinset).card
              sizeChanged := (st.dataGraph ∪ tl.toFinset).card != st.size
              iteration := st.iteration + 1
              prevInferred := some tl.toFinset
              calls := st.calls + 1
              err := none }
    else st

/-- The observable outcome of one call to `infer`: the returned value (or the
propagated exception), the final triple set of the caller's `data_graph`
object, the final state of the caller's `ontologies` object, the number of
completed passes (engine invocation followed by merge) and the number of
engine invocations. -/
structure InferOutcome where
  result : Except Str Graph
  callerData : Graph
  callerOnt : Option Graph
  passes : Int
  calls : Nat

/-- Initial loop state for a run starting from the skolemized data graph. -/
def initState (dg0 : Graph) : LoopState :=
  { dataGraph := dg0
    size := dg0.card
    sizeChanged := true
    iteration := 0
    prevInferred := none
    calls := 0
    err := none }

/-- The final loop state of one run of `infer`'s `while` loop, started on the
skolemized copy of the import-stripped data graph, with fuel
`max_iterations.toNat` (the guard `current_iteration < max_iterations` makes
this exact). -/
def inferFinal (data : Graph) (minIter maxIter : Int) (early : Bool) (outputs : Nat → Str)
    (parse : Str → Except Str (List Triple)) : LoopState :=
  inferLoop minIter maxIter early outputs parse maxIter.toNat
    (initState (skolemize (removeImports data)))

/-- The caller's `ontologies` object after a run of `infer` (`__init__.py`
lines 82-87 and 135-137): `None` stays `None`; a falsy (empty) graph is
rebound to a fresh empty graph, so the caller's object is untouched;
otherwise the caller's object has its imports removed in place, and they are
re-added only when the loop completed without an exception (lines 132-138 do
not run when the parse raises) and the `ontologies` binding is still truthy,
i.e. the stripped graph is non-empty. -/
def callerOntAfter (ontologies : Option Graph) (errored : Bool) : Option Graph :=
  match ontologies with
  | none => none
  | some g =>
    if g.card != 0 then
      if errored then some (removeImports g)
      else if (removeImports g).card != 0 then some (removeImports g ∪ importsOf g)
      else some (removeImports g)
    else some g

/-- `infer` from `__init__.py`.  Mirrors the source: record and remove the
data graph's `owl:imports` triples (mutating the caller's object), rebind
`data_graph` to its skolemized copy, run the loop, re-add the saved imports
into the (derived) data graph, re-add the ontology imports only when the
`ontologies` binding is still truthy, and return the de-skolemized derived
graph.  On a parse failure inside the loop the exception propagates: nothing
is restored and no graph is returned. -/
def infer (data : Graph) (ontologies : Option Graph) (minIter maxIter : Int)
    (early : Bool) (outputs : Nat → Str)
    (parse : Str → Except Str (List Triple)) : InferOutcome :=
  let fin := inferFinal data minIter maxIter early outputs parse
  { result :=
      match fin.err with
      | some e => Except.error e
      | none => Except.ok (de_skolemize (fin.dataGraph ∪ importsOf data))
    callerData := removeImports data
    callerOnt := callerOntAfter ontologies fin.err.isSome
    passes := fin.iteration
    calls := fin.calls }

/-- The message built by `topquadrant_shacl.py` (lines 108-113) when the
inferred triples fail to parse: it embeds the parser's diagnostic and the
engine process's raw stderr text. -/
def tqParseFailureMessage (e stderr : Str) : Str :=
  "Error parsing inferred triples: ".toList ++ e
    ++ "\nMaybe due to SHACL inference process exception?\n".toList ++ stderr

/- Report-graph queries (`validate` and `pretty_print_report`).  The parsed
report graph is modelled as a list of triples in the graph's iteration
order. -/

/-- `len(list(r.subjects(predicate=SH.resultSeverity, object=SH.Violation)))`. -/
def violationCount (r : List Triple) : Nat :=
  (r.filter (fun t => decide (t.2.1 = shResultSeverity ∧ t.2.2 = shViolation))).length

/-- `len(list(r.subjects(predicate=SH.conforms, object=Literal(True))))`. -/
def conformsCount (r : List Triple) : Nat :=
  (r.filter (fun t => decide (t.2.1 = shConforms ∧ t.2.2 = litTrue))).length

/-- `validates = not has_violation or conforms` — the Python truthiness of
the returned value (`True`, or the `conforms` count). -/
def validatesOf (r : List Triple) : Bool :=
  (violationCount r == 0) || !(conformsCount r == 0)

/-- `next(g.subjects(RDF.type, ty), None)`: the first subject, in graph
order, of a triple typing it with `ty`. -/
def firstSubjectOfType (g : List Triple) (ty : Term) : Option Term :=
  ((g.filter (fun t => decide (t.2.1 = rdfType ∧ t.2.2 = ty))).head?).map (fun t => t.1)

/-- `g.value(s, p)`: the object of the first matching triple, or `None`. -/
def graphValue (g : List Triple) (s p : Term) : Option Term :=
  ((g.filter (fun t => decide (t.1 = s ∧ t.2.1 = p))).head?).map (fun t => t.2.2)

/-- `list(g.objects(s, p))` in graph order. -/
def objectsOf (g : List Triple) (s p : Term) : List Term :=
  (g.filter (fun t => decide (t.1 = s ∧ t.2.1 = p))).map (fun t => t.2.2)

/- Term rendering.  Modelled from the spec: `normalizeUri` and `.n3` belong
to the out-of-scope RDF library's serialization layer; only which lines are
produced matters to the claims, not their exact spelling. -/

def normalizeUri : Term → Str
  | Term.uri s => s
  | Term.bnode s => '_' :: ':' :: s
  | Term.lit v _ => v

def n3Render : Term → Str
  | Term.uri s => '<' :: (s ++ ['>'])
  | Term.bnode s => '_' :: ':' :: s
  | Term.lit v _ => '"' :: (v ++ ['"'])

/-- Python `str(term)` as used by `f"Message: {message}"`. -/
def strRender : Term → Str
  | Term.uri s => s
  | Term.bnode s => s
  | Term.lit v _ => v

def noReportMsg : Str := "No validation report found in the graph.".toList

/-- `x = report_g.value(...); if x: output_lines.append(label + render(x))`:
one optional output line, present exactly when the value exists and is
truthy. -/
def fieldLine (label : Str) (render : Term → Str) : Option Term → List Str
  | some t => if termTruthy t then [label ++ render t] else []
  | none => []

/-- The lines appended for one validation result (the body of the `for` loop
in `pretty_print_report`). -/
def resultBlock (g : List Triple) (i : Nat) (rn : Term) : List Str :=
  ("\n--- Result ".toList ++ (Nat.repr i).toList ++ " ---".toList)
    :: (fieldLine "Severity: ".toList normalizeUri (graphValue g rn shResultSeverity)
      ++ fieldLine "Focus Node: ".toList n3Render (graphValue g rn shFocusNode)
      ++ fieldLine "Message: ".toList strRender (graphValue g rn shResultMessage)
      ++ fieldLine "Path: ".toList n3Render (graphValue g rn shResultPath)
      ++ fieldLine "Value: ".toList n3Render (graphValue g rn shValue)
      ++ fieldLine "Source Constraint: ".toList normalizeUri
          (graphValue g rn shSourceConstraintComponent)
      ++ fieldLine "Source Shape: ".toList n3Render (graphValue g rn shSourceShape))

/-- The header line of the results section,
`f"\nValidation Results ({len(results)}):"`. -/
def resultsHeader (n : Nat) : Str :=
  "\nValidation Results (".toList ++ (Nat.repr n).toList ++ "):".toList

/-- `pretty_print_report` from `__init__.py`: find the first
`sh:ValidationReport` subject (a falsy node — `None` or an empty identifier —
yields the not-found message), print the header and the truthiness of the
report's `sh:conforms` value, and, when that is falsy and results exist, one
block per `sh:result` object. -/
def pretty_print_report (g : List Triple) : Str :=
  match firstSubjectOfType g shValidationReport with
  | none => noReportMsg
  | some rn =>
    if termTruthy rn then
      let conforms := pyBool (graphValue g rn shConforms)
      let results := objectsOf g rn shResult
      let baseLines := ["Validation Report".toList, "Conforms: ".toList ++ pyBoolStr conforms]
      joinNl
        (if conforms = false ∧ results ≠ [] then
          baseLines ++ (resultsHeader results.length
            :: (List.enumFrom 1 results).flatMap (fun p => resultBlock g p.1 p.2))
        else baseLines)
    else noReportMsg

/-- The observable outcome of one call to `validate`: the returned triple (or
the propagated exception), the final triple set of the caller's `data_graph`
object and the final state of the caller's `shape_graphs` object. -/
structure ValidateOutcome where
  result : Except Str (Bool × List Triple × Str)
  callerData : Graph
  callerShapes : Option Graph

/-- `validate` from `__init__.py`: run `infer` with the shapes as ontologies,
strip imports from the derived inferred graph and (when truthy) from the
`shape_graphs` binding, invoke the engine in validation mode (its stdout is
`valOut`), restore imports, parse the cleaned stdout as the report graph, and
return the conformance verdict, the report graph and its rendering. -/
def validate (data : Graph) (shapes : Option Graph) (minIter maxIter : Int)
    (early : Bool) (outputs : Nat → Str)
    (parse : Str → Except Str (List Triple)) (valOut : Str) : ValidateOutcome :=
  let io := infer data shapes minIter maxIter early outputs parse
  match io.result with
  | Except.error e =>
    { result := Except.error e, callerData := io.callerData, callerShapes := io.callerOnt }
  | Except.ok _ =>
    let shapesNow : Option Graph :=
      match io.callerOnt with
      | none => none
      | some sg => if sg.card != 0 then some (removeImports sg) else some sg
    let callerShapesFinal : Option Graph :=
      match io.callerOnt, shapesNow with
      | none, _ => none
      | some sg, some sg1 =>
        if sg.card != 0 then
          if sg1.card != 0 then some (sg1 ∪ importsOf sg) else some sg1
        else some sg
      | some sg, none => some sg
    match parse (clean_stdout valOut) with
    | Except.error e =>
      { result := Except.error e, callerData := io.callerData,
        callerShapes := callerShapesFinal }
    | Except.ok r =>
      { result := Except.ok (validatesOf r, r, pretty_print_report r)
        callerData := io.callerData
        callerShapes := callerShapesFinal }

/- Concrete inputs used by witnesses and counterexamples. -/

def exS : Term := Term.uri "urn:s".toList

def exP : Term := Term.uri "urn:p".toList

def exO : Term := Term.uri "urn:o".toList

/-- A ground example triple. -/
def t0 : Triple := (exS, exP, exO)

/-- A data graph consisting of a single `owl:imports` triple. -/
def d1 : Graph := {(Term.uri "urn:a".toList, owlImports, Term.uri "urn:b".toList)}

/-- A data graph consisting of a single triple with a blank-node subject. -/
def d3 : Graph := {(Term.bnode ['b'], exP, exO)}

/-- A non-empty ontology graph without import triples. -/
def og1 : Graph := {t0}

/-- An engine that prints nothing. -/
def outputsEmpty : Nat → Str := fun _ => []

/-- An engine that prints the one-line document `x` on every invocation. -/
def outputsX : Nat → Str := fun _ => ['x']

/-- A parser that parses everything as the empty graph. -/
def parseEmpty : Str → Except Str (List Triple) := fun _ => Except.ok []

/-- A parser that parses everything as the one-triple graph `[t0]`. -/
def parseT0 : Str → Except Str (List Triple) := fun _ => Except.ok [t0]

/-- A parser that fails on everything with diagnostic `boom`. -/
def parseFail : Str → Except Str (List Triple) := fun _ => Except.error "boom".toList

/-- A validation report with a single Violation-severity result and no
`sh:conforms` flag. -/
def reportR : List Triple := [(Term.uri "urn:x".toList, shResultSeverity, shViolation)]

/-- A parser mapping the document `R` to `reportR` and everything else to the
empty graph. -/
def parseR : Str → Except Str (List Triple) :=
  fun s => if s = ['R'] then Except.ok reportR else Except.ok []

/-- A graph holding a URI that already lies in the skolem genid namespace,
next to a blank node. -/
def Gc : Graph :=
  {(Term.uri (genid ++ ['b']), exP, exO),
   (Term.bnode ['c'], Term.uri "urn:q".toList, Term.uri "urn:r".toList)}

/-- A report graph whose `sh:ValidationReport` node is the empty URI
(a falsy `URIRef`). -/
def gx1 : List Triple := [(Term.uri [], rdfType, shValidationReport)]

def rep0 : Term := Term.uri "urn:report".toList

def res1 : Term := Term.uri "urn:r1".toList

/-- A non-conforming report whose single result carries
`sh:value Literal(False)` — a present but falsy field. -/
def gx2 : List Triple :=
  [(rep0, rdfType, shValidationReport), (rep0, shResult, res1), (res1, shValue, litFalse)]

/- Helper lemmas about the inference loop. -/

/-- Each pass increments the iteration counter by exactly one, so the counter
grows by at most the available fuel. -/
theorem loop_iteration_le (minIter maxIter : Int) (early : Bool) (outputs : Nat → Str)
    (parse : Str → Except Str (List Triple)) :
    ∀ (fuel : Nat) (st : LoopState),
      (inferLoop minIter maxIter early outputs parse fuel st).iteration ≤
        st.iteration + fuel := by
  intro fuel
  induction fuel with
  | zero => intro st; rw [inferLoop]; omega
  | succ n ih =>
    intro st
    rw [inferLoop]
    split
    · split
      · show st.iteration ≤ st.iteration + ((n + 1 : Nat) : Int)
        omega
      · split
        · show st.iteration ≤ st.iteration + ((n + 1 : Nat) : Int)
          omega
        · refine le_trans (ih _) ?_
          show st.iteration + 1 + (n : Int) ≤ st.iteration + ((n + 1 : Nat) : Int)
          push_cast
          omega
    · omega

/-- With the early isomorphic exit disabled and every engine output parsing
successfully, the loop cannot stop before `min_iterations` passes (as long as
fuel and `max_iterations` allow). -/
theorem loop_min_passes (minIter maxIter : Int) (outputs : Nat → Str)
    (parse : Str → Except Str (List Triple))
    (hok : ∀ n, ∃ l, parse (clean_stdout (outputs n)) = Except.ok l) :
    ∀ (fuel : Nat) (st : LoopState), st.iteration + fuel ≤ maxIter →
      min minIter (st.iteration + fuel) ≤
        (inferLoop minIter maxIter false outputs parse fuel st).iteration := by
  intro fuel
  induction fuel with
  | zero => intro st _; rw [inferLoop]; omega
  | succ n ih =>
    intro st hfuel
    rw [inferLoop]
    split
    · split
      · rename_i e heq
        obtain ⟨l, hl⟩ := hok st.calls
        rw [hl] at heq
        exact absurd heq (by simp)
      · rw [if_neg (by simp)]
        refine le_trans ?_ (ih _ ?_)
        · show min minIter (st.iteration + ((n + 1 : Nat) : Int)) ≤
            min minIter (st.iteration + 1 + (n : Int))
          push_cast
          omega
        · show st.iteration + 1 + (n : Int) ≤ maxIter
          push_cast at hfuel
          omega
    · rename_i hguard
      simp only [Bool.and_eq_true, Bool.or_eq_true, decide_eq_true_eq, not_and, not_or] at hguard
      by_cases hmax : st.iteration < maxIter
      · have hmin : ¬ st.iteration < minIter := fun hlt => (hguard (Or.inr hlt)) hmax
        omega
      · push_cast at hfuel
        omega

/-- The loop only ever unions inferred triples into the data graph: the graph
grows, its recorded size is accurate, and the size never decreases. -/
theorem loop_mono (minIter maxIter : Int) (early : Bool) (outputs : Nat → Str)
    (parse : Str → Except Str (List Triple)) :
    ∀ (fuel : Nat) (st : LoopState), st.size = st.dataGraph.card →
      st.dataGraph ⊆ (inferLoop minIter maxIter early outputs parse fuel st).dataGraph ∧
      st.size ≤ (inferLoop minIter maxIter early outputs parse fuel st).size ∧
      (inferLoop minIter maxIter early outputs parse fuel st).size =
        (inferLoop minIter maxIter early outputs parse fuel st).dataGraph.card := by
  intro fuel
  induction fuel with
  | zero =>
    intro st hinv
    rw [inferLoop]
    exact ⟨Finset.Subset.refl _, le_refl _, hinv⟩
  | succ n ih =>
    intro st hinv
    rw [inferLoop]
    split
    · split
      · exact ⟨Finset.Subset.refl _, le_refl _, hinv⟩
      · split
        · exact ⟨Finset.Subset.refl _, le_refl _, hinv⟩
        · rename_i tl _ _
          have h := ih
            { dataGraph := st.dataGraph ∪ tl.toFinset
              size := (st.dataGraph ∪ tl.toFinset).card
              sizeChanged := (st.dataGraph ∪ tl.toFinset).card != st.size
              iteration := st.iteration + 1
              prevInferred := some tl.toFinset
              calls := st.calls + 1
              err := none } rfl
          refine ⟨Finset.Subset.trans Finset.subset_union_left h.1, ?_, h.2.2⟩
          calc st.size = st.dataGraph.card := hinv
            _ ≤ (st.dataGraph ∪ tl.toFinset).card :=
              Finset.card_le_card Finset.subset_union_left
            _ ≤ _ := h.2.1
    · exact ⟨Finset.Subset.refl _, le_refl _, hinv⟩

/-- When the loop ends with a pending exception, the exception is the parse
diagnostic of the last engine invocation, every earlier invocation parsed
successfully, and the loop performed no invocation after the failing one. -/
theorem loop_err_spec (minIter maxIter : Int) (early : Bool) (outputs : Nat → Str)
    (parse : Str → Except Str (List Triple)) :
    ∀ (fuel : Nat) (st : LoopState) (res : LoopState) (d : Str),
      inferLoop minIter maxIter early outputs parse fuel st = res →
      (∀ j, j < st.calls → ∃ l, parse (clean_stdout (outputs j)) = Except.ok l) →
      st.err = none →
      res.err = some d →
      0 < res.calls ∧
      parse (clean_stdout (outputs (res.calls - 1))) = Except.error d ∧
      ∀ j, j < res.calls - 1 →
        ∃ l, parse (clean_stdout (outputs j)) = Except.ok l := by
  intro fuel
  induction fuel with
  | zero =>
    intro st res d hres _ hnone herr
    rw [inferLoop] at hres
    subst hres
    rw [hnone] at herr
    exact absurd herr (by simp)
  | succ n ih =>
    intro st res d hres hprev hnone herr
    rw [inferLoop] at hres
    split at hres
    · split at hres
      · rename_i e hparse
        subst hres
        have hd : e = d := Option.some.inj herr
        subst hd
        refine ⟨Nat.succ_pos _, ?_, ?_⟩
        · show parse (clean_stdout (outputs (st.calls + 1 - 1))) = Except.error e
          simp only [Nat.add_sub_cancel]
          exact hparse
        · intro j hj
          have hj' : j < st.calls := by
            have : j < st.calls + 1 - 1 := hj
            omega
          exact hprev j hj'
      · split at hres
        · subst hres
          have : st.err = some d := herr
          rw [hnone] at this
          exact absurd this (by simp)
        · rename_i tl hparse _
          exact ih _ res d hres
            (by
              intro j hj
              have hj' : j < st.calls + 1 := hj
              rcases Nat.lt_succ_iff_lt_or_eq.mp hj' with h | h
              · exact hprev j h
              · exact ⟨tl, h ▸ hparse⟩)
            rfl herr
    · subst hres
      rw [hnone] at herr
      exact absurd herr (by simp)

/- Helper lemmas about skolemization and graph isomorphism. -/

theorem dropLenAppend {α : Type} (l₁ l₂ : List α) : (l₁ ++ l₂).drop l₁.length = l₂ := by
  induction l₁ with
  | nil => rfl
  | cons a l ih =>
    show ((a :: l) ++ l₂).drop (l.length + 1) = l₂
    rw [List.cons_append, List.drop_succ_cons]
    exact ih

/-- De-skolemization inverts skolemization on any term that is not already a
genid URI. -/
theorem deSk_sk_term (t : Term) (h : isGenidUri t = false) :
    deSkolemizeTerm (skolemizeTerm t) = t := by
  cases t with
  | uri u =>
    have hp : ¬ genid <+: u := by simpa [isGenidUri] using h
    show (if genid <+: u then Term.bnode (u.drop genid.length) else Term.uri u) = Term.uri u
    rw [if_neg hp]
  | bnode s =>
    show (if genid <+: genid ++ s then Term.bnode ((genid ++ s).drop genid.length)
        else Term.uri (genid ++ s)) = Term.bnode s
    rw [if_pos (List.prefix_append genid s), dropLenAppend]
  | lit v dt => rfl

theorem deSk_sk_triple (t : Triple) (h : noGenid t) :
    deSkolemizeTriple (skolemizeTriple t) = t := by
  obtain ⟨s, p, o⟩ := t
  obtain ⟨h1, h2⟩ := h
  show (deSkolemizeTerm (skolemizeTerm s), p, deSkolemizeTerm (skolemizeTerm o)) = (s, p, o)
  rw [deSk_sk_term s h1, deSk_sk_term o h2]

/-- The skolemize / de-skolemize round trip is the identity on graphs without
pre-existing genid URIs (in subject or object position). -/
theorem de_skolemize_skolemize (G : Graph) (h : ∀ t ∈ G, noGenid t) :
    de_skolemize (skolemize G) = G := by
  unfold de_skolemize skolemize
  rw [Finset.image_image]
  have he : Set.EqOn (deSkolemizeTriple ∘ skolemizeTriple) id ↑G :=
    fun t ht => deSk_sk_triple t (h t ht)
  rw [Finset.image_congr he, Finset.image_id]

/-- De-skolemization never produces a genid URI. -/
theorem deSk_term_no_genid (x : Term) : isGenidUri (deSkolemizeTerm x) = false := by
  cases x with
  | uri u =>
    by_cases hp : genid <+: u
    · show isGenidUri (if genid <+: u then Term.bnode (u.drop genid.length) else Term.uri u)
        = false
      rw [if_pos hp]
      rfl
    · show isGenidUri (if genid <+: u then Term.bnode (u.drop genid.length) else Term.uri u)
        = false
      rw [if_neg hp]
      simpa [isGenidUri] using hp
  | bnode s => rfl
  | lit v dt => rfl

/-- Every triple of a de-skolemized graph is free of genid URIs in subject
and object position. -/
theorem de_skolemize_no_genid (G : Graph) : ∀ t ∈ de_skolemize G, noGenid t := by
  intro t ht
  obtain ⟨t', _, rfl⟩ := Finset.mem_image.mp ht
  exact ⟨deSk_term_no_genid _, deSk_term_no_genid _⟩

theorem relabelTerm_id (x : Term) : relabelTerm id x = x := by
  cases x <;> rfl

theorem relabelTriple_id (t : Triple) : relabelTriple id t = t := by
  obtain ⟨s, p, o⟩ := t
  show (relabelTerm id s, relabelTerm id p, relabelTerm id o) = (s, p, o)
  rw [relabelTerm_id, relabelTerm_id, relabelTerm_id]

theorem graphIso_refl (G : Graph) : GraphIso G G := by
  refine ⟨id, Set.bijOn_id _, ?_⟩
  have he : Set.EqOn (relabelTriple id) id ↑G := fun t _ => relabelTriple_id t
  rw [Finset.image_congr he, Finset.image_id]

/-- De-skolemization is the identity on a triple without genid URIs. -/
theorem deSk_term_id (x : Term) (h : isGenidUri x = false) : deSkolemizeTerm x = x := by
  cases x with
  | uri u =>
    have hp : ¬ genid <+: u := by simpa [isGenidUri] using h
    show (if genid <+: u then Term.bnode (u.drop genid.length) else Term.uri u) = Term.uri u
    rw [if_neg hp]
  | bnode s => rfl
  | lit v dt => rfl

theorem deSk_triple_id (t : Triple) (h : noGenid t) : deSkolemizeTriple t = t := by
  obtain ⟨s, p, o⟩ := t
  obtain ⟨h1, h2⟩ := h
  show (deSkolemizeTerm s, p, deSkolemizeTerm o) = (s, p, o)
  rw [deSk_term_id s h1, deSk_term_id o h2]

/-- Removing the import triples is the same as subtracting them. -/
theorem removeImports_eq_sdiff (g : Graph) : removeImports g = g \ importsOf g := by
  ext t
  simp only [removeImports, importsOf, Finset.mem_filter, Finset.mem_sdiff]
  tauto

/-- Re-adding the removed imports restores the graph exactly. -/
theorem removeImports_union_importsOf (g : Graph) :
    removeImports g ∪ importsOf g = g := by
  ext t
  simp only [removeImports, importsOf, Finset.mem_union, Finset.mem_filter]
  tauto

/-- When the `ontologies` graph is non-empty after import removal, the
bookkeeping of `infer` restores the caller's ontology object exactly. -/
theorem callerOntAfter_restores (og : Graph) (hne : (removeImports og).card ≠ 0) :
    callerOntAfter (some og) false = some og := by
  have h1 : (removeImports og).card ≤ og.card :=
    Finset.card_le_card (Finset.filter_subset _ _)
  have hogc : (og.card != 0) = true := by
    simp only [bne_iff_ne, ne_eq]
    omega
  have hwc : ((removeImports og).card != 0) = true := by
    simp only [bne_iff_ne, ne_eq]
    exact hne
  simp [callerOntAfter, hogc, hwc, removeImports_union_importsOf]

/-- A subject/predicate-object count is zero exactly when no matching triple
exists. -/
theorem count_eq_zero_iff (r : List Triple) (p o : Term) :
    (r.filter (fun t => decide (t.2.1 = p ∧ t.2.2 = o))).length = 0 ↔
      ¬ ∃ s : Term, (s, p, o) ∈ r := by
  rw [List.length_eq_zero, List.filter_eq_nil_iff]
  constructor
  · rintro h ⟨s, hs⟩
    have := h _ hs
    simp at this
  · intro h t ht
    simp only [decide_eq_true_eq, not_and]
    intro h1 h2
    refine absurd ?_ h
    refine ⟨t.1, ?_⟩
    rw [← h1, ← h2]
    exact ht

/- Claim theorems. -/

/-- C9: `infer` never touches the caller's `data_graph` object after the
initial import removal: all merging, import re-addition and de-skolemization
happen on the derived skolemized copy that is returned, so after the call the
caller's object holds exactly its original triples minus its `owl:imports`
triples. -/
theorem C9_frame (data : Graph) (ontologies : Option Graph) (minIter maxIter : Int)
    (early : Bool) (outputs : Nat → Str) (parse : Str → Except Str (List Triple)) :
    (infer data ontologies minIter maxIter early outputs parse).callerData =
      data \ importsOf data := by
  show removeImports data = data \ importsOf data
  exact removeImports_eq_sdiff data

/-- C10: on a graph with no node of `rdf:type sh:ValidationReport`,
`pretty_print_report` returns exactly the not-found message (and, being a
total function, does not raise). -/
theorem C10_no_report (g : List Triple)
    (h : ∀ t ∈ g, ¬ (t.2.1 = rdfType ∧ t.2.2 = shValidationReport)) :
    pretty_print_report g = "No validation report found in the graph.".toList := by
  have hfil : g.filter (fun t => decide (t.2.1 = rdfType ∧ t.2.2 = shValidationReport)) = [] := by
    rw [List.filter_eq_nil_iff]
    intro t ht
    simpa using h t ht
  unfold pretty_print_report firstSubjectOfType
  rw [hfil]
  rfl

/-- Witness for C10 at the empty graph. -/
theorem C10_no_report_witness :
    pretty_print_report [] = "No validation report found in the graph.".toList :=
  C10_no_report [] (by simp)

/-- C4: for every input and every engine behaviour (any sequence of outputs,
any parser), `infer`'s loop halts — the embedding is a total function — after
at most `max_iterations` passes. -/
theorem C4_termination (data : Graph) (ontologies : Option Graph) (minIter maxIter : Int)
    (early : Bool) (outputs : Nat → Str) (parse : Str → Except Str (List Triple))
    (hmax : 0 ≤ maxIter) :
    (infer data ontologies minIter maxIter early outputs parse).passes ≤ maxIter := by
  have h := loop_iteration_le minIter maxIter early outputs parse maxIter.toNat
    (initState (skolemize (removeImports data)))
  show (inferFinal data minIter maxIter early outputs parse).iteration ≤ maxIter
  refine le_trans h ?_
  show (0 : Int) + maxIter.toNat ≤ maxIter
  rw [Int.toNat_of_nonneg hmax]
  omega

/-- Witness for C4 at a concrete run. -/
theorem C4_termination_witness :
    (infer (∅ : Graph) none 1 10 false outputsEmpty parseEmpty).passes ≤ 10 :=
  C4_termination ∅ none 1 10 false outputsEmpty parseEmpty (by decide)

/-- C3 counterexample: with `min_iterations = 3` and `max_iterations = 10`
but `early_isomorphic_exit = True` and an engine whose successive outputs
parse to the same graph, the loop breaks after a single completed pass —
fewer than `min_iterations` — so "at least m passes regardless of the other
parameters" is false. -/
theorem C3_counterexample :
    (infer (∅ : Graph) none 3 10 true outputsX parseT0).passes = 1 := by decide

/-- C3 (amended): with `early_isomorphic_exit` disabled and every engine
output parsing successfully, a call with `0 ≤ min_iterations ≤
max_iterations` performs at least `min_iterations` passes even if the graph
size stops changing. -/
theorem C3_min_passes (data : Graph) (ontologies : Option Graph) (minIter maxIter : Int)
    (outputs : Nat → Str) (parse : Str → Except Str (List Triple))
    (hmin : 0 ≤ minIter) (hle : minIter ≤ maxIter)
    (hok : ∀ n, ∃ l, parse (clean_stdout (outputs n)) = Except.ok l) :
    minIter ≤ (infer data ontologies minIter maxIter false outputs parse).passes := by
  have h := loop_min_passes minIter maxIter outputs parse hok maxIter.toNat
    (initState (skolemize (removeImports data)))
    (by
      show (0 : Int) + maxIter.toNat ≤ maxIter
      rw [Int.toNat_of_nonneg (le_trans hmin hle)]
      omega)
  show minIter ≤ (inferFinal data minIter maxIter false outputs parse).iteration
  refine le_trans ?_ h
  show minIter ≤ min minIter ((0 : Int) + maxIter.toNat)
  rw [Int.toNat_of_nonneg (le_trans hmin hle)]
  omega

/-- Witness for the amended C3 at a concrete run. -/
theorem C3_min_passes_witness :
    (2 : Int) ≤ (infer (∅ : Graph) none 2 5 false outputsEmpty parseEmpty).passes :=
  C3_min_passes ∅ none 2 5 outputsEmpty parseEmpty (by decide) (by decide)
    (fun _ => ⟨[], rfl⟩)

/-- C6: within a run, the loop only unions inferred triples into the
(skolemized) data graph and never removes any, so from any loop state whose
recorded size is accurate, the graph of every later state contains it and the
size is non-decreasing. -/
theorem C6_monotone (minIter maxIter : Int) (early : Bool) (outputs : Nat → Str)
    (parse : Str → Except Str (List Triple)) (fuel : Nat) (st : LoopState)
    (hinv : st.size = st.dataGraph.card) :
    st.dataGraph ⊆ (inferLoop minIter maxIter early outputs parse fuel st).dataGraph ∧
    st.size ≤ (inferLoop minIter maxIter early outputs parse fuel st).size := by
  obtain ⟨h1, h2, _⟩ := loop_mono minIter maxIter early outputs parse fuel st hinv
  exact ⟨h1, h2⟩

/-- Witness for C6 at a concrete state. -/
theorem C6_monotone_witness :
    (initState (∅ : Graph)).dataGraph ⊆
      (inferLoop 1 10 false outputsEmpty parseEmpty 2 (initState ∅)).dataGraph ∧
    (initState (∅ : Graph)).size ≤
      (inferLoop 1 10 false outputsEmpty parseEmpty 2 (initState ∅)).size :=
  C6_monotone 1 10 false outputsEmpty parseEmpty 2 (initState ∅) rfl

/-- C1 counterexample: on a data graph holding one `owl:imports` triple, a
successful run of `infer` (the engine infers nothing) leaves the caller's
`data_graph` object with no import triples at all — the removed imports are
re-added only to the returned derived graph — so "the set of import triples
present after the call equals the set present before it" fails for the
caller-owned data graph. -/
theorem C1_counterexample :
    (infer d1 none 1 10 false outputsEmpty parseEmpty).result = Except.ok d1 ∧
    importsOf ((infer d1 none 1 10 false outputsEmpty parseEmpty).callerData) = ∅ ∧
    importsOf d1 ≠ ∅ :=
  ⟨rfl, by decide, by decide⟩

/-- C1 (amended): for a successful run of `infer`, the data graph's import
triples (assumed free of skolem genid URIs) are all present in the returned
derived graph, the caller's `data_graph` object ends with exactly its
original triples minus its imports, and the caller's `ontologies` object is
restored exactly provided it is non-empty after import removal. -/
theorem C1_restoration (data og : Graph) (minIter maxIter : Int) (early : Bool)
    (outputs : Nat → Str) (parse : Str → Except Str (List Triple)) (g : Graph)
    (hok : (infer data (some og) minIter maxIter early outputs parse).result = Except.ok g)
    (hng : ∀ t ∈ importsOf data, noGenid t)
    (hne : (removeImports og).card ≠ 0) :
    importsOf data ⊆ g ∧
    (infer data (some og) minIter maxIter early outputs parse).callerData =
      data \ importsOf data ∧
    (infer data (some og) minIter maxIter early outputs parse).callerOnt = some og := by
  have hres : (infer data (some og) minIter maxIter early outputs parse).result =
      (match (inferFinal data minIter maxIter early outputs parse).err with
       | some e => Except.error e
       | none => Except.ok (de_skolemize
           ((inferFinal data minIter maxIter early outputs parse).dataGraph ∪
             importsOf data))) := rfl
  rw [hres] at hok
  cases hfe : (inferFinal data minIter maxIter early outputs parse).err with
  | some e =>
    rw [hfe] at hok
    simp at hok
  | none =>
    rw [hfe] at hok
    simp only [Except.ok.injEq] at hok
    refine ⟨?_, removeImports_eq_sdiff data, ?_⟩
    · intro t ht
      have h1 : t ∈ (inferFinal data minIter maxIter early outputs parse).dataGraph ∪
          importsOf data := Finset.mem_union_right _ ht
      have h2 := Finset.mem_image_of_mem deSkolemizeTriple h1
      rw [deSk_triple_id t (hng t ht)] at h2
      rw [← hok]
      exact h2
    · show callerOntAfter (some og)
        ((inferFinal data minIter maxIter early outputs parse).err).isSome = some og
      rw [hfe]
      exact callerOntAfter_restores og hne

/-- Witness for the amended C1 at a concrete run. -/
theorem C1_restoration_witness :
    importsOf d1 ⊆ d1 ∧
    (infer d1 (some og1) 1 10 false outputsEmpty parseEmpty).callerData =
      d1 \ importsOf d1 ∧
    (infer d1 (some og1) 1 10 false outputsEmpty parseEmpty).callerOnt = some og1 :=
  C1_restoration d1 og1 1 10 false outputsEmpty parseEmpty d1 rfl (by decide) (by decide)

/-- C7 counterexample: the graph `Gc` has blank nodes, but its skolemize /
de-skolemize round trip is not isomorphic to it: a caller URI already lying
in the skolem genid namespace is turned into a blank node by
de-skolemization, so no blank-node relabelling can map the round-tripped
graph back onto `Gc`. -/
theorem C7_counterexample :
    (Term.bnode ['c'], Term.uri "urn:q".toList, Term.uri "urn:r".toList) ∈ Gc ∧
    ¬ GraphIso (de_skolemize (skolemize Gc)) Gc := by
  constructor
  · decide
  · rintro ⟨f, -, heq⟩
    have hmem : (Term.uri (genid ++ ['b']), Term.uri "urn:p".toList,
        Term.uri "urn:o".toList) ∈ Gc := by decide
    rw [← heq] at hmem
    obtain ⟨t, ht, hmap⟩ := Finset.mem_image.mp hmem
    have hR : de_skolemize (skolemize Gc) =
        ({(Term.bnode ['b'], Term.uri "urn:p".toList, Term.uri "urn:o".toList),
          (Term.bnode ['c'], Term.uri "urn:q".toList, Term.uri "urn:r".toList)} : Graph) := by
      decide
    rw [hR] at ht
    rcases Finset.mem_insert.mp ht with h | h
    · subst h
      simp [relabelTriple, relabelTerm] at hmap
    · have h' : t = (Term.bnode ['c'], Term.uri "urn:q".toList, Term.uri "urn:r".toList) :=
        Finset.mem_singleton.mp h
      subst h'
      simp [relabelTriple, relabelTerm] at hmap

/-- C7 (amended): (i) on graphs free of pre-existing skolem genid URIs the
round trip `de_skolemize (skolemize G)` is exactly `G`, hence isomorphic to
it; (ii) the graph a successful `infer` returns never contains a genid URI in
subject or object position (no skolem URI leaks); (iii) every non-import
triple of a genid-free input data graph reappears, with its original blank
nodes, in the returned graph. -/
theorem C7_roundtrip :
    (∀ G : Graph, (∀ t ∈ G, noGenid t) →
      de_skolemize (skolemize G) = G ∧ GraphIso (de_skolemize (skolemize G)) G) ∧
    (∀ (data : Graph) (ontologies : Option Graph) (minIter maxIter : Int) (early : Bool)
        (outputs : Nat → Str) (parse : Str → Except Str (List Triple)) (g : Graph),
      (infer data ontologies minIter maxIter early outputs parse).result = Except.ok g →
      ∀ t ∈ g, noGenid t) ∧
    (∀ (data : Graph) (ontologies : Option Graph) (minIter maxIter : Int) (early : Bool)
        (outputs : Nat → Str) (parse : Str → Except Str (List Triple)) (g : Graph),
      (infer data ontologies minIter maxIter early outputs parse).result = Except.ok g →
      (∀ t ∈ data, noGenid t) →
      ∀ t ∈ data, t.2.1 ≠ owlImports → t ∈ g) := by
  refine ⟨?_, ?_, ?_⟩
  · intro G h
    have he := de_skolemize_skolemize G h
    refine ⟨he, ?_⟩
    rw [he]
    exact graphIso_refl G
  · intro data ontologies minIter maxIter early outputs parse g hok
    have hres : (infer data ontologies minIter maxIter early outputs parse).result =
        (match (inferFinal data minIter maxIter early outputs parse).err with
         | some e => Except.error e
         | none => Except.ok (de_skolemize
             ((inferFinal data minIter maxIter early outputs parse).dataGraph ∪
               importsOf data))) := rfl
    rw [hres] at hok
    cases hfe : (inferFinal data minIter maxIter early outputs parse).err with
    | some e =>
      rw [hfe] at hok
      simp at hok
    | none =>
      rw [hfe] at hok
      simp only [Except.ok.injEq] at hok
      rw [← hok]
      exact de_skolemize_no_genid _
  · intro data ontologies minIter maxIter early outputs parse g hok hng t ht hni
    have hres : (infer data ontologies minIter maxIter early outputs parse).result =
        (match (inferFinal data minIter maxIter early outputs parse).err with
         | some e => Except.error e
         | none => Except.ok (de_skolemize
             ((inferFinal data minIter maxIter early outputs parse).dataGraph ∪
               importsOf data))) := rfl
    rw [hres] at hok
    cases hfe : (inferFinal data minIter maxIter early outputs parse).err with
    | some e =>
      rw [hfe] at hok
      simp at hok
    | none =>
      rw [hfe] at hok
      simp only [Except.ok.injEq] at hok
      have h0 : t ∈ removeImports data := Finset.mem_filter.mpr ⟨ht, hni⟩
      have h1 : skolemizeTriple t ∈ skolemize (removeImports data) :=
        Finset.mem_image_of_mem _ h0
      have h2 : skolemizeTriple t ∈
          (inferFinal data minIter maxIter early outputs parse).dataGraph := by
        refine (loop_mono minIter maxIter early outputs parse maxIter.toNat
          (initState (skolemize (removeImports data))) rfl).1 ?_
        exact h1
      have h3 : skolemizeTriple t ∈
          (inferFinal data minIter maxIter early outputs parse).dataGraph ∪
            importsOf data := Finset.mem_union_left _ h2
      have h4 := Finset.mem_image_of_mem deSkolemizeTriple h3
      rw [deSk_sk_triple t (hng t ht)] at h4
      rw [← hok]
      exact h4

/-- Witness for the amended C7 at concrete inputs. -/
theorem C7_roundtrip_witness :
    (de_skolemize (skolemize d3) = d3 ∧ GraphIso (de_skolemize (skolemize d3)) d3) ∧
    (Term.bnode ['b'], exP, exO) ∈ d3 :=
  ⟨C7_roundtrip.1 d3 (by decide),
   C7_roundtrip.2.2 d3 none 1 10 false outputsEmpty parseEmpty d3 rfl (by decide)
     (Term.bnode ['b'], exP, exO) (by decide) (by decide)⟩

/-- C5: when a cleaned engine output fails to parse, the operation fails with
exactly that parse diagnostic and nothing else happens.  (i) If the very
first output fails to parse, `infer` fails with that diagnostic after exactly
one engine invocation.  (ii) Whenever `infer` fails, the error is the parse
diagnostic of the last engine invocation, every earlier invocation parsed
successfully (the failure is not retried), and no graph is returned.
(iii) A report-parse failure makes `validate` fail with that diagnostic and
no partial result.  (iv) The failure message built by
`topquadrant_shacl.infer` carries the engine process's raw stderr text
verbatim. -/
theorem C5_parse_failure :
    (∀ (data : Graph) (ontologies : Option Graph) (minIter maxIter : Int) (early : Bool)
        (outputs : Nat → Str) (parse : Str → Except Str (List Triple)) (d : Str),
      0 < maxIter → parse (clean_stdout (outputs 0)) = Except.error d →
      (infer data ontologies minIter maxIter early outputs parse).result = Except.error d ∧
      (infer data ontologies minIter maxIter early outputs parse).calls = 1) ∧
    (∀ (data : Graph) (ontologies : Option Graph) (minIter maxIter : Int) (early : Bool)
        (outputs : Nat → Str) (parse : Str → Except Str (List Triple)) (d : Str),
      (infer data ontologies minIter maxIter early outputs parse).result = Except.error d →
      0 < (infer data ontologies minIter maxIter early outputs parse).calls ∧
      parse (clean_stdout (outputs
          ((infer data ontologies minIter maxIter early outputs parse).calls - 1))) =
        Except.error d ∧
      ∀ j, j < (infer data ontologies minIter maxIter early outputs parse).calls - 1 →
        ∃ l, parse (clean_stdout (outputs j)) = Except.ok l) ∧
    (∀ (data : Graph) (shapes : Option Graph) (minIter maxIter : Int) (early : Bool)
        (outputs : Nat → Str) (parse : Str → Except Str (List Triple)) (valOut : Str)
        (g : Graph) (d : Str),
      (infer data shapes minIter maxIter early outputs parse).result = Except.ok g →
      parse (clean_stdout valOut) = Except.error d →
      (validate data shapes minIter maxIter early outputs parse valOut).result =
        Except.error d) ∧
    (∀ e stderr : Str, stderr <:+ tqParseFailureMessage e stderr) := by
  refine ⟨?_, ?_, ?_, ?_⟩
  · intro data ontologies minIter maxIter early outputs parse d hmax hfail
    obtain ⟨k, hk⟩ : ∃ k, maxIter.toNat = k + 1 := ⟨maxIter.toNat - 1, by omega⟩
    have hfin : inferFinal data minIter maxIter early outputs parse =
        { initState (skolemize (removeImports data)) with err := some d, calls := 1 } := by
      unfold inferFinal
      rw [hk, inferLoop]
      have hguard : (((initState (skolemize (removeImports data))).sizeChanged
          || decide ((initState (skolemize (removeImports data))).iteration < minIter))
          && decide ((initState (skolemize (removeImports data))).iteration < maxIter))
          = true := by
        simp [initState, hmax]
      rw [if_pos hguard]
      have hc0 : (initState (skolemize (removeImports data))).calls = 0 := rfl
      rw [hc0, hfail]
    constructor
    · show (match (inferFinal data minIter maxIter early outputs parse).err with
        | some e => Except.error e
        | none => Except.ok (de_skolemize
            ((inferFinal data minIter maxIter early outputs parse).dataGraph ∪
              importsOf data))) = Except.error d
      rw [hfin]
    · show (inferFinal data minIter maxIter early outputs parse).calls = 1
      rw [hfin]
  · intro data ontologies minIter maxIter early outputs parse d herr
    have herr' : (inferFinal data minIter maxIter early outputs parse).err = some d := by
      have hres : (infer data ontologies minIter maxIter early outputs parse).result =
          (match (inferFinal data minIter maxIter early outputs parse).err with
           | some e => Except.error e
           | none => Except.ok (de_skolemize
               ((inferFinal data minIter maxIter early outputs parse).dataGraph ∪
                 importsOf data))) := rfl
      rw [hres] at herr
      cases hfe : (inferFinal data minIter maxIter early outputs parse).err with
      | some e =>
        rw [hfe] at herr
        simp only [Except.error.injEq] at herr
        rw [herr]
      | none =>
        rw [hfe] at herr
        simp at herr
    have h := loop_err_spec minIter maxIter early outputs parse maxIter.toNat
      (initState (skolemize (removeImports data)))
      (inferFinal data minIter maxIter early outputs parse) d rfl
      (by
        intro j hj
        have : j < 0 := hj
        omega)
      rfl herr'
    exact ⟨h.1, h.2.1, h.2.2⟩
  · intro data shapes minIter maxIter early outputs parse valOut g d hok hfail
    simp only [validate, hok, hfail]
  · intro e stderr
    exact List.suffix_append _ _

/-- Witness for C5 at a concrete run with a failing parser. -/
theorem C5_parse_failure_witness :
    ((infer (∅ : Graph) none 1 10 false outputsEmpty parseFail).result =
        Except.error "boom".toList ∧
      (infer (∅ : Graph) none 1 10 false outputsEmpty parseFail).calls = 1) ∧
    "err".toList <:+ tqParseFailureMessage "diag".toList "err".toList :=
  ⟨C5_parse_failure.1 ∅ none 1 10 false outputsEmpty parseFail "boom".toList
      (by decide) rfl,
   C5_parse_failure.2.2.2 "diag".toList "err".toList⟩

/-- C2: whenever `validate` returns, its verdict is true exactly when the
report graph has no triple `(s, sh:resultSeverity, sh:Violation)` or has some
triple `(s, sh:conforms, Literal(True))`. -/
theorem C2_conformance (data : Graph) (shapes : Option Graph) (minIter maxIter : Int)
    (early : Bool) (outputs : Nat → Str) (parse : Str → Except Str (List Triple))
    (valOut : Str) (v : Bool) (r : List Triple) (txt : Str)
    (h : (validate data shapes minIter maxIter early outputs parse valOut).result =
      Except.ok (v, r, txt)) :
    v = true ↔
      ((¬ ∃ s : Term, (s, shResultSeverity, shViolation) ∈ r) ∨
        ∃ s : Term, (s, shConforms, litTrue) ∈ r) := by
  have hv : v = validatesOf r := by
    cases hio : (infer data shapes minIter maxIter early outputs parse).result with
    | error e =>
      have hveq : (validate data shapes minIter maxIter early outputs parse valOut).result =
          Except.error e := by
        simp only [validate, hio]
      rw [hveq] at h
      simp at h
    | ok g =>
      cases hrep : parse (clean_stdout valOut) with
      | error e =>
        have hveq : (validate data shapes minIter maxIter early outputs parse valOut).result =
            Except.error e := by
          simp only [validate, hio, hrep]
        rw [hveq] at h
        simp at h
      | ok r' =>
        have hveq : (validate data shapes minIter maxIter early outputs parse valOut).result =
            Except.ok (validatesOf r', r', pretty_print_report r') := by
          simp only [validate, hio, hrep]
        rw [hveq] at h
        simp only [Except.ok.injEq, Prod.mk.injEq] at h
        obtain ⟨h1, h2, -⟩ := h
        rw [← h1, h2]
  subst hv
  have h1 : violationCount r = 0 ↔
      ¬ ∃ s : Term, (s, shResultSeverity, shViolation) ∈ r :=
    count_eq_zero_iff r shResultSeverity shViolation
  have h2 : conformsCount r = 0 ↔ ¬ ∃ s : Term, (s, shConforms, litTrue) ∈ r :=
    count_eq_zero_iff r shConforms litTrue
  constructor
  · intro hv
    have hv' : violationCount r = 0 ∨ conformsCount r ≠ 0 := by
      simpa [validatesOf] using hv
    rcases hv' with hl | hr
    · exact Or.inl (h1.mp hl)
    · refine Or.inr ?_
      by_contra hc
      exact hr (h2.mpr hc)
  · intro hor
    have hd : violationCount r = 0 ∨ conformsCount r ≠ 0 := by
      rcases hor with hl | hr
      · exact Or.inl (h1.mpr hl)
      · exact Or.inr (fun hz => (h2.mp hz) hr)
    simpa [validatesOf] using hd

/-- Witness for C2 at a concrete run whose report holds one
Violation-severity result and no conforms flag: the verdict is `false`. -/
theorem C2_conformance_witness :
    (false = true) ↔
      ((¬ ∃ s : Term, (s, shResultSeverity, shViolation) ∈ reportR) ∨
        ∃ s : Term, (s, shConforms, litTrue) ∈ reportR) :=
  C2_conformance ∅ none 1 10 false outputsEmpty parseR ['R'] false reportR
    (pretty_print_report reportR) rfl

/-- C8 counterexample.  (i) A report graph whose `sh:ValidationReport` node
is the falsy empty URI makes `pretty_print_report` return the not-found
message, without the claimed header or conformance line.  (ii) A report whose
result carries `sh:value Literal(False)` — a field present in the report
graph but falsy — renders a block with no `Value:` line, so fields are
omitted not only when absent. -/
theorem C8_counterexample :
    ((Term.uri [], rdfType, shValidationReport) ∈ gx1 ∧
      pretty_print_report gx1 = "No validation report found in the graph.".toList) ∧
    (graphValue gx2 res1 shValue = some litFalse ∧
      pretty_print_report gx2 =
        ("Validation Report\nConforms: False\n" ++
          "\nValidation Results (1):\n\n--- Result 1 ---").toList) :=
  ⟨⟨by decide, by decide⟩, ⟨by decide, by decide⟩⟩

/-- C8 (amended): for every report graph whose first `sh:ValidationReport`
node is truthy, the output is the header line, a `Conforms:` line showing the
Python truthiness of the report's `sh:conforms` value, and, when that is
falsy and results exist, a results header plus one block per result
(1-indexed, in graph order); within a block each of the seven fields appears
exactly when its value is present and truthy (see `resultBlock` and
`fieldLine`), in particular a present-and-truthy `sh:value` always yields its
`Value:` line. -/
theorem C8_rendering :
    (∀ (g : List Triple) (rn : Term),
      firstSubjectOfType g shValidationReport = some rn → termTruthy rn = true →
      pretty_print_report g =
        joinNl
          (["Validation Report".toList,
            "Conforms: ".toList ++ pyBoolStr (pyBool (graphValue g rn shConforms))]
            ++ (if pyBool (graphValue g rn shConforms) = false ∧
                  objectsOf g rn shResult ≠ [] then
                  resultsHeader (objectsOf g rn shResult).length
                    :: (List.enumFrom 1 (objectsOf g rn shResult)).flatMap
                        (fun p => resultBlock g p.1 p.2)
                else []))) ∧
    (∀ (g : List Triple) (i : Nat) (rn t : Term),
      graphValue g rn shValue = some t → termTruthy t = true →
      ("Value: ".toList ++ n3Render t) ∈ resultBlock g i rn) := by
  constructor
  · intro g rn h1 h2
    simp only [pretty_print_report, h1, h2, if_true]
    split
    · rfl
    · rw [List.append_nil]
  · intro g i rn t hv ht
    unfold resultBlock
    refine List.mem_cons_of_mem _ ?_
    rw [hv]
    simp [fieldLine, ht, List.mem_append]

/-- Witness for the amended C8 at the concrete report `gx2`. -/
theorem C8_rendering_witness :
    pretty_print_report gx2 =
      joinNl
        (["Validation Report".toList,
          "Conforms: ".toList ++ pyBoolStr (pyBool (graphValue gx2 rep0 shConforms))]
          ++ (if pyBool (graphValue gx2 rep0 shConforms) = false ∧
                objectsOf gx2 rep0 shResult ≠ [] then
                resultsHeader (objectsOf gx2 rep0 shResult).length
                  :: (List.enumFrom 1 (objectsOf gx2 rep0 shResult)).flatMap
                      (fun p => resultBlock gx2 p.1 p.2)
              else [])) :=
  C8_rendering.1 gx2 rep0 (by decide) (by decide)

end BrickTQ
